import Mathlib

/-!
Formal model of the `Data` class of `vincent` (`src/vincent/data.py`).

The file shallowly embeds the Python code: Python scalar objects become the
inductive `PyVal`, whose capability accessors (`strVal`, `timetupleVal`,
`itemVal`, `floatVal`, `intVal`) record exactly what `Data.serialize` probes
with `isinstance`/`hasattr` (being a `str`, having a `timetuple`, having an
`item` unwrap, having `__float__`, having `__int__`).  Python `float`s are
modelled as rationals (every float the code manipulates is produced by exact
conversions, so no rounding is involved).  Exceptions become `Except PyErr`.
Each conversion classmethod of `Data` (`from_pandas`, `from_numpy`,
`from_mult_iters`) is translated statement by statement; pandas/numpy inputs
are modelled structurally (a Series is an ordered list of index/value pairs,
a DataFrame is an index list, a column list and a row-major cell grid, a 2-D
ndarray is a rectangular list of lists together with its column count).
-/

deriving instance DecidableEq for Except

namespace Vincent

/-- Python exception values raised by `data.py`:
`LoadError(msg)`, `ValueError(msg)`, `ValidationError(msg)` and the raw
`KeyError(key)` coming out of `dict.pop`. -/
inductive PyErr : Type where
  | loadError (msg : String)
  | valueError (msg : String)
  | validationError (msg : String)
  | keyError (key : String)
  deriving DecidableEq, Repr

/-- Python `int(q)` on a float: truncation toward zero. -/
def pyTrunc (q : Rat) : Int :=
  if 0 ≤ q then q.floor else -((-q).floor)

/-- A Python scalar object, classified by the capabilities that
`Data.serialize` (data.py:122-141) probes with `isinstance`/`hasattr`:
* `pyStr s` — a `str` with content `s`;
* `pyTime tname mk` — a date/time object: it has a `timetuple` and
  `time.mktime(obj.timetuple())` is the float `mk`; no `item`, `__float__`
  or `__int__`;
* `pyBoxed tname inner flt int` — an array-library boxed scalar: it has an
  `item()` unwrap returning `inner`, and possibly `__float__`/`__int__`
  (recorded in `flt`/`int`, unreachable behind `item` in `serialize`);
* `pyFloat q` — a `float`: `__float__` gives `q` itself, `__int__` truncates;
* `pyInt n` — an `int`: `__float__` gives `float(n)`, `__int__` gives `n`;
* `pyFloatObj tname q` — some other object with `__float__` (and possibly
  `__int__`), e.g. `Decimal`;
* `pyIntObj tname n` — an object with `__int__` but no `__float__`;
* `pyOther tname` — an object with none of the probed capabilities. -/
inductive PyVal : Type where
  | pyStr (s : String)
  | pyTime (tname : String) (mk : Rat)
  | pyBoxed (tname : String) (inner : PyVal) (flt : Option Rat) (int : Option Int)
  | pyFloat (q : Rat)
  | pyInt (n : Int)
  | pyFloatObj (tname : String) (q : Rat)
  | pyIntObj (tname : String) (n : Int)
  | pyOther (tname : String)
  deriving DecidableEq, Repr

/-- `type(obj).__name__`. -/
def PyVal.tname : PyVal → String
  | .pyStr _ => "str"
  | .pyTime t _ => t
  | .pyBoxed t _ _ _ => t
  | .pyFloat _ => "float"
  | .pyInt _ => "int"
  | .pyFloatObj t _ => t
  | .pyIntObj t _ => t
  | .pyOther t => t

/-- `isinstance(obj, str)`, together with the string content. -/
def PyVal.strVal : PyVal → Option String
  | .pyStr s => some s
  | _ => none

/-- `hasattr(obj, 'timetuple')`, together with `time.mktime(obj.timetuple())`. -/
def PyVal.timetupleVal : PyVal → Option Rat
  | .pyTime _ mk => some mk
  | _ => none

/-- `hasattr(obj, 'item')`, together with the object `obj.item()` returns. -/
def PyVal.itemVal : PyVal → Option PyVal
  | .pyBoxed _ v _ _ => some v
  | _ => none

/-- `hasattr(obj, '__float__')`, together with `float(obj)`. -/
def PyVal.floatVal : PyVal → Option Rat
  | .pyBoxed _ _ f _ => f
  | .pyFloat q => some q
  | .pyInt n => some (n : Rat)
  | .pyFloatObj _ q => some q
  | _ => none

/-- `hasattr(obj, '__int__')`, together with `int(obj)`. -/
def PyVal.intVal : PyVal → Option Int
  | .pyBoxed _ _ _ i => i
  | .pyFloat q => some (pyTrunc q)
  | .pyInt n => some n
  | .pyIntObj _ n => some n
  | _ => none

/-- `Data.serialize` (data.py:122-141), the `isinstance`/`hasattr` chain:

    if isinstance(obj, str):        return obj
    elif hasattr(obj, 'timetuple'): return int(time.mktime(obj.timetuple())) * 1000
    elif hasattr(obj, 'item'):      return obj.item()
    elif hasattr(obj, '__float__'): return float(obj)
    elif hasattr(obj, '__int__'):   return int(obj)
    else: raise LoadError('cannot serialize index of type ' + type(obj).__name__)
-/
def serialize (o : PyVal) : Except PyErr PyVal :=
  match o.strVal with
  | some _ => .ok o
  | none =>
  match o.timetupleVal with
  | some mk => .ok (.pyInt (pyTrunc mk * 1000))
  | none =>
  match o.itemVal with
  | some v => .ok v
  | none =>
  match o.floatVal with
  | some q => .ok (.pyFloat q)
  | none =>
  match o.intVal with
  | some n => .ok (.pyInt n)
  | none => .error (.loadError ("cannot serialize index of type " ++ o.tname))

/-- One `{idx, col, val}` output dict (data.py:196-199, 207-212, 316-319).
The keys are the fixed literals `'idx'`, `'col'`, `'val'` and (optionally)
`'group'`, so the dict is modelled as a record with an optional `group`. -/
structure Record : Type where
  idx : PyVal
  col : PyVal
  val : PyVal
  group : Option Nat
  deriving DecidableEq, Repr

/-- An exception-propagating loop over a list: a Python `for` whose body may
raise, where the first exception aborts the whole call. -/
def mapSer {α β : Type} (f : α → Except PyErr β) : List α → Except PyErr (List β)
  | [] => .ok []
  | a :: l =>
    match f a with
    | .error e => .error e
    | .ok b =>
      match mapSer f l with
      | .error e => .error e
      | .ok bs => .ok (b :: bs)

/-- Python `x if x else d` / `x or d` on an optional string
(`None` and `''` are falsy). -/
def pyOrStr (s : Option String) (d : String) : String :=
  match s with
  | none => d
  | some s => if s = "" then d else s

/-- Python truthiness of an optional string: `none` for both `None` and `''`. -/
def pyTruthy (s : Option String) : Option String :=
  match s with
  | none => none
  | some s => if s = "" then none else s

/-- Python `x or d` on an optional list (`None` and `[]` are falsy). -/
def pyOrList (l : Option (List PyVal)) (d : List PyVal) : List PyVal :=
  match l with
  | none => d
  | some l => if l.isEmpty then d else l

/-- `Data.__init__` (data.py:32-44): `self.name = name if name else 'table'`. -/
def dataName (name : Option String) : String :=
  pyOrStr name "table"

/-- The name check of `Data.validate` (data.py:115-120):
`if not self.name: raise ValidationError('name is required for Data')`.
(The preceding `super().validate` call belongs to the out-of-scope grammar
framework.) -/
def validateName (name : String) : Except PyErr Unit :=
  if name = "" then .error (.validationError "name is required for Data") else .ok ()

/-- A built `Data` container: its `name` and its `values` list, whose rows
have shape `ρ` (per-cell `Record`s or per-row dicts depending on handler). -/
structure DataVals (ρ : Type) : Type where
  name : String
  values : List ρ
  deriving DecidableEq, Repr

/-- A pandas `Series`: its `name` attribute (`None` possible) and its ordered
(index, value) pairs as yielded by `iterkv()`. -/
structure PSeries : Type where
  sname : Option String
  pairs : List (PyVal × PyVal)

/-- The `Series` branch of `Data.from_pandas` (data.py:193-200), under the
default `columns=None`, `key_on='idx'` (so the defensive copy `pd_obj` holds
the same pairs as `data`):

    data_key = data.name or series_key
    for i, v in pd_obj.iterkv():
        value = {'idx': cls.serialize(i), 'col': data_key,
                 'val': cls.serialize(v)}
        vega_data.values.append(value)
-/
def seriesValues (data : PSeries) (series_key : String) : Except PyErr (List Record) :=
  mapSer (fun iv =>
    match serialize iv.1 with
    | .error e => .error e
    | .ok si =>
      match serialize iv.2 with
      | .error e => .error e
      | .ok sv => .ok ⟨si, .pyStr (pyOrStr data.sname series_key), sv, none⟩)
    data.pairs

/-- A pandas `DataFrame`: its row index, its column names, and its cells in
row-major order (row `i` of `rows` lists the cells of index entry `i` in
column order). -/
structure PDataFrame : Type where
  index : List PyVal
  cols : List PyVal
  rows : List (List PyVal)

/-- The inner loop of the `DataFrame` branch of `Data.from_pandas`
(data.py:205-213): `for num, (k, v) in enumerate(row.iterkv())`, with the
enumeration counter `num` made explicit. -/
def dfRowValues (grouped : Bool) (i : PyVal) : Nat → List (PyVal × PyVal) →
    Except PyErr (List Record)
  | _, [] => .ok []
  | num, (k, v) :: rest =>
    match serialize i with
    | .error e => .error e
    | .ok si =>
    match serialize k with
    | .error e => .error e
    | .ok sk =>
    match serialize v with
    | .error e => .error e
    | .ok sv =>
    match dfRowValues grouped i (num + 1) rest with
    | .error e => .error e
    | .ok rs => .ok (⟨si, sk, sv, if grouped then some num else none⟩ :: rs)

/-- The outer loop of the `DataFrame` branch of `Data.from_pandas`
(data.py:205): `for i, row in pd_obj.iterrows()`; `row.iterkv()` pairs the
column names with the row's cells. -/
def dfValues (grouped : Bool) (cols : List PyVal) :
    List (PyVal × List PyVal) → Except PyErr (List Record)
  | [] => .ok []
  | (i, row) :: rest =>
    match dfRowValues grouped i 0 (List.zip cols row) with
    | .error e => .error e
    | .ok rvals =>
      match dfValues grouped cols rest with
      | .error e => .error e
      | .ok rs => .ok (rvals ++ rs)

/-- The `DataFrame` branch of `Data.from_pandas` (data.py:202-213), under the
default `columns=None`, `key_on='idx'`. -/
def fromPandasDF (df : PDataFrame) (grouped : Bool) : Except PyErr (List Record) :=
  dfValues grouped df.cols (List.zip df.index df.rows)

/-- Inserting one key/value pair into a Python dict, modelled as an
association list ordered by first insertion: a duplicate key overwrites the
stored value in place, a new key is appended. -/
def dictInsert (d : List (String × PyVal)) (kv : String × PyVal) :
    List (String × PyVal) :=
  if kv.1 ∈ d.map Prod.fst then
    d.map (fun p => if p.1 = kv.1 then (p.1, kv.2) else p)
  else d ++ [kv]

/-- Python `dict(pairs)`. -/
def pyDict (l : List (String × PyVal)) : List (String × PyVal) :=
  l.foldl dictInsert []

/-- The effective index of `Data.from_numpy` (data.py:254):
`index = index or range(np_obj.shape[0])`, where both `None` and an empty
list are falsy. -/
def effIndex (npRows : List (List PyVal)) (index : Option (List PyVal)) :
    List PyVal :=
  pyOrList index ((List.range npRows.length).map
    (fun n => PyVal.pyInt (Int.ofNat n)))

/-- `Data.from_numpy` (data.py:219-274).  `npRows` and `ncols` model the 2-D
array: `np_obj.tolist()` is `npRows` and `np_obj.shape` is
`(npRows.length, ncols)`.  Column names are modelled as the strings they are
coerced to (`columns = map(str, columns)` is the identity on strings).

    index = index or range(np_obj.shape[0])
    index_key = index_key or cls._default_index_key
    if len(index) != np_obj.shape[0]:
        raise LoadError('length of index must be equal to number of rows of array')
    elif len(columns) != np_obj.shape[1]:
        raise LoadError('length of columns must be equal to number of columns of array')
    data = cls(name=name, **kwargs)
    data.values = [dict([(index_key, cls.serialize(idx))] +
                        [(col, x) for col, x in zip(columns, row)])
                   for idx, row in zip(index, np_obj.tolist())]
-/
def fromNumpy (npRows : List (List PyVal)) (ncols : Nat) (name : String)
    (columns : List String) (index : Option (List PyVal))
    (index_key : Option String) :
    Except PyErr (DataVals (List (String × PyVal))) :=
  let index := effIndex npRows index
  let index_key := pyOrStr index_key "idx"
  if index.length ≠ npRows.length then
    .error (.loadError "length of index must be equal to number of rows of array")
  else if columns.length ≠ ncols then
    .error (.loadError "length of columns must be equal to number of columns of array")
  else
    match mapSer (fun ir =>
        match serialize ir.1 with
        | .error e => .error e
        | .ok si => .ok (pyDict ((index_key, si) :: List.zip columns ir.2)))
        (List.zip index npRows) with
    | .error e => .error e
    | .ok values => .ok ⟨dataName (some name), values⟩

/-- `Data.from_mult_iters` (data.py:276-322):

    if not name: name = 'table'
    lengths = [len(v) for v in kwargs.values()]
    if len(set(lengths)) != 1:
        raise ValueError('Iterables must all be same length')
    if not idx:
        raise ValueError('Must provide iter name index reference')
    index = kwargs.pop(idx)          # raw KeyError if idx is not a key
    vega_vals = []
    for k, v in kwargs.iteritems():
        for idx, val in zip(index, v):
            vega_vals.append({'idx': idx, 'col': k, 'val': val})
    return cls(name, values=vega_vals)

`kwargs` is the keyword dict, modelled as an association list in the dict's
iteration order.  Note no value passes through `serialize` here. -/
def fromMultIters (name : Option String) (idx : Option String)
    (kwargs : List (String × List PyVal)) : Except PyErr (DataVals Record) :=
  let name := pyOrStr name "table"
  let lengths := kwargs.map (fun p => p.2.length)
  if lengths.dedup.length ≠ 1 then
    .error (.valueError "Iterables must all be same length")
  else
    match pyTruthy idx with
    | none => .error (.valueError "Must provide iter name index reference")
    | some idxName =>
      match kwargs.lookup idxName with
      | none => .error (.keyError idxName)
      | some index =>
        let rest := kwargs.eraseP (fun p => p.1 == idxName)
        .ok ⟨name, rest.flatMap (fun kv =>
          (List.zip index kv.2).map (fun iv => ⟨iv.1, .pyStr kv.1, iv.2, none⟩))⟩

/-- The value `serialize` returns when it succeeds (specification-side ghost:
theorems use it only under hypotheses that guarantee success). -/
def serOk (v : PyVal) : PyVal :=
  match serialize v with
  | .ok w => w
  | .error _ => v

/-- Ghost form of `dfRowValues` with serialization already resolved. -/
def rowExpected (grouped : Bool) (i : PyVal) : Nat → List (PyVal × PyVal) →
    List Record
  | _, [] => []
  | num, (k, v) :: rest =>
    ⟨serOk i, serOk k, serOk v, if grouped then some num else none⟩ ::
      rowExpected grouped i (num + 1) rest

/-- Ghost form of `dfValues` with serialization already resolved. -/
def dfExpected (grouped : Bool) (cols : List PyVal) :
    List (PyVal × List PyVal) → List Record
  | [] => []
  | (i, row) :: rest =>
    rowExpected grouped i 0 (List.zip cols row) ++ dfExpected grouped cols rest

/-- The `group` column a grouped `R × C` conversion should carry: `R` blocks,
each cycling `0 .. C-1` (or `none` throughout when grouping is off). -/
def groupColumn (grouped : Bool) (R C : Nat) : List (Option Nat) :=
  (List.replicate R ((List.range C).map
    (fun j => if grouped then some j else none))).flatten

/-- `data[key]` on a DataFrame: the cells of the column named `key`. -/
def getColumn (d : PDataFrame) (key : PyVal) : List PyVal :=
  match List.findIdx? (fun c => c == key) d.cols with
  | some j => d.rows.map (fun r => r.getD j (.pyOther "nan"))
  | none => []

/-- `data[columns]` on a DataFrame: a fresh DataFrame restricted to the named
columns. -/
def selectColumns (d : PDataFrame) (cs : List PyVal) : PDataFrame :=
  ⟨d.index, cs,
    d.rows.map (fun r => cs.map (fun c =>
      match List.findIdx? (fun x => x == c) d.cols with
      | some j => r.getD j (.pyOther "nan")
      | none => .pyOther "nan"))⟩

/-- `pd_obj.index = ix`: in-place replacement of a DataFrame's index. -/
def setIndex (d : PDataFrame) (ix : List PyVal) : PDataFrame :=
  { d with index := ix }

/-- The two Python variables alive across `from_pandas` lines 185-189:
`dataSlot` holds the caller's object `data`, `tempSlot` holds the local
`pd_obj`.  Every assignment in that stretch of source writes exactly one
slot. -/
structure PandasHeap : Type where
  dataSlot : PDataFrame
  tempSlot : PDataFrame

/-- The input-preparation prefix of `Data.from_pandas` (data.py:185-189), as
a state machine over the two object slots:

    pd_obj = data.copy()            # fresh object, equal value
    if columns:
        pd_obj = data[columns]      # fresh object
    if key_on != 'idx':
        pd_obj.index = data[key_on] # writes pd_obj's slot only

`columns` is falsy when it is `None` or the empty list.  The body that
follows (data.py:193-213) only reads the slots. -/
def fromPandasPrelude (data : PDataFrame) (columns : Option (List PyVal))
    (key_on : String) : PandasHeap :=
  let h0 : PandasHeap := ⟨data, data⟩
  let h1 :=
    match columns with
    | some cs =>
      if cs.isEmpty then h0
      else { h0 with tempSlot := selectColumns h0.dataSlot cs }
    | none => h0
  let h2 :=
    if key_on ≠ "idx" then
      { h1 with tempSlot := setIndex h1.tempSlot (getColumn h1.dataSlot (.pyStr key_on)) }
    else h1
  h2

/-- A value that is already JSON-safe: a `str`, an `int` or a `float`. -/
def jsonSafe (o : PyVal) : Prop :=
  (∃ s, o = .pyStr s) ∨ (∃ n, o = .pyInt n) ∨ (∃ q, o = .pyFloat q)

/-- Whether `serialize` succeeds on a value (decidable success predicate). -/
def serializes (v : PyVal) : Bool :=
  match serialize v with
  | .ok _ => true
  | .error _ => false

example : serialize (.pyStr "a") = .ok (.pyStr "a") := rfl
example : serialize (.pyInt 3) = .ok (.pyFloat 3) := by decide
example : serialize (.pyFloat (5/2)) = .ok (.pyFloat (5/2)) := rfl
example : serialize (.pyTime "datetime" 100) = .ok (.pyInt 100000) := by decide
example : serialize (.pyOther "object") =
    .error (.loadError "cannot serialize index of type object") := rfl

example :
    fromMultIters (some "t") (some "x")
      [("x", [.pyInt 0, .pyInt 1, .pyInt 5]), ("y", [.pyInt 10, .pyInt 20, .pyInt 30])]
    = .ok ⟨"t", [⟨.pyInt 0, .pyStr "y", .pyInt 10, none⟩,
                 ⟨.pyInt 1, .pyStr "y", .pyInt 20, none⟩,
                 ⟨.pyInt 5, .pyStr "y", .pyInt 30, none⟩]⟩ := by decide

example :
    fromNumpy [[.pyInt 7, .pyInt 8], [.pyInt 9, .pyInt 10]] 2 "t" ["a", "b"]
      (some [.pyInt 0, .pyInt 1]) none
    = .ok ⟨"t", [[("idx", .pyFloat 0), ("a", .pyInt 7), ("b", .pyInt 8)],
                 [("idx", .pyFloat 1), ("a", .pyInt 9), ("b", .pyInt 10)]]⟩ := by decide

/-! ### Generic lemmas about the exception-propagating loop -/

theorem mapSer_length {α β : Type} {f : α → Except PyErr β} :
    ∀ {l : List α} {out : List β}, mapSer f l = .ok out → out.length = l.length := by
  intro l
  induction l with
  | nil =>
    intro out h
    simp only [mapSer, Except.ok.injEq] at h
    simp [← h]
  | cons a l ih =>
    intro out h
    simp only [mapSer] at h
    cases hfa : f a with
    | error e => simp [hfa] at h
    | ok b =>
      cases hml : mapSer f l with
      | error e => simp [hfa, hml] at h
      | ok bs =>
        simp only [hfa, hml, Except.ok.injEq] at h
        subst h
        simp [ih hml]

theorem mapSer_mem {α β : Type} {f : α → Except PyErr β} :
    ∀ {l : List α} {out : List β}, mapSer f l = .ok out →
      ∀ b ∈ out, ∃ a ∈ l, f a = .ok b := by
  intro l
  induction l with
  | nil =>
    intro out h b hb
    simp only [mapSer, Except.ok.injEq] at h
    subst h
    simp at hb
  | cons a l ih =>
    intro out h b hb
    simp only [mapSer] at h
    cases hfa : f a with
    | error e => simp [hfa] at h
    | ok b0 =>
      cases hml : mapSer f l with
      | error e => simp [hfa, hml] at h
      | ok bs =>
        simp only [hfa, hml, Except.ok.injEq] at h
        subst h
        rcases List.mem_cons.1 hb with hb | hb
        · exact ⟨a, List.mem_cons_self a l, hb ▸ hfa⟩
        · obtain ⟨a', ha', hfa'⟩ := ih hml b hb
          exact ⟨a', List.mem_cons_of_mem a ha', hfa'⟩

theorem mapSer_error_mem {α β : Type} {f : α → Except PyErr β} :
    ∀ {l : List α} {e : PyErr}, mapSer f l = .error e → ∃ a ∈ l, f a = .error e := by
  intro l
  induction l with
  | nil => intro e h; simp [mapSer] at h
  | cons a rest ih =>
    intro e h
    simp only [mapSer] at h
    cases hfa : f a with
    | error e' =>
      simp only [hfa, Except.error.injEq] at h
      exact ⟨a, List.mem_cons_self a rest, by rw [hfa, h]⟩
    | ok b =>
      cases hml : mapSer f rest with
      | error e' =>
        simp only [hfa, hml, Except.error.injEq] at h
        obtain ⟨a', ha', hfa'⟩ := ih (by rw [hml, h])
        exact ⟨a', List.mem_cons_of_mem a ha', hfa'⟩
      | ok bs => simp [hfa, hml] at h

theorem mapSer_of_forall {α β : Type} {f : α → Except PyErr β} {g : α → β} :
    ∀ {l : List α}, (∀ a ∈ l, f a = .ok (g a)) → mapSer f l = .ok (l.map g) := by
  intro l
  induction l with
  | nil => intro _; rfl
  | cons a l ih =>
    intro h
    have ha := h a (List.mem_cons_self a l)
    have hl := ih (fun x hx => h x (List.mem_cons_of_mem a hx))
    simp [mapSer, ha, hl]

theorem mapSer_forall₂ {α β : Type} {f : α → Except PyErr β} :
    ∀ {l : List α} {out : List β}, mapSer f l = .ok out →
      List.Forall₂ (fun a b => f a = .ok b) l out := by
  intro l
  induction l with
  | nil =>
    intro out h
    simp only [mapSer, Except.ok.injEq] at h
    subst h
    exact List.Forall₂.nil
  | cons a l ih =>
    intro out h
    simp only [mapSer] at h
    cases hfa : f a with
    | error e => simp [hfa] at h
    | ok b =>
      cases hml : mapSer f l with
      | error e => simp [hfa, hml] at h
      | ok bs =>
        simp only [hfa, hml, Except.ok.injEq] at h
        subst h
        exact List.Forall₂.cons hfa (ih hml)

theorem forall₂_eq_map {α β : Type} {R : α → β → Prop} {g : α → β} :
    ∀ {l : List α} {out : List β}, List.Forall₂ R l out →
      (∀ a b, R a b → b = g a) → out = l.map g := by
  intro l out h hdet
  induction h with
  | nil => rfl
  | cons hab _ ih => simp [ih, hdet _ _ hab]

/-! ### Python dict semantics -/

theorem foldl_dictInsert :
    ∀ {l acc : List (String × PyVal)},
      (acc.map Prod.fst ++ l.map Prod.fst).Nodup →
      l.foldl dictInsert acc = acc ++ l := by
  intro l
  induction l with
  | nil => intro acc _; simp
  | cons kv l ih =>
    intro acc h
    have hk : kv.1 ∉ acc.map Prod.fst := by
      intro hmem
      rcases List.nodup_append.1 h with ⟨-, -, hdisj⟩
      exact hdisj hmem (by simp)
    have hins : dictInsert acc kv = acc ++ [kv] := by
      simp [dictInsert, hk]
    have h' : ((acc ++ [kv]).map Prod.fst ++ l.map Prod.fst).Nodup := by
      simpa [List.append_assoc] using h
    rw [List.foldl_cons, hins, ih h']
    simp

/-- On a pair list with pairwise distinct keys, building a Python dict keeps
the pairs exactly as supplied. -/
theorem pyDict_eq_self {l : List (String × PyVal)}
    (h : (l.map Prod.fst).Nodup) : pyDict l = l := by
  have := @foldl_dictInsert l [] (by simpa using h)
  simpa [pyDict] using this

/-! ### C1: serialization precedence -/

/-- **C1** (confirmed): `serialize` applies the coercion rules in fixed
precedence order — textual values are returned unchanged; values exposing a
calendar/time decomposition are converted to
`int(time.mktime(obj.timetuple())) * 1000`; values exposing a scalar unwrap
are unwrapped; then float conversion; then integer conversion — and when no
rule applies it fails with a `LoadError` that reports the unconvertible
value's type name. -/
theorem serialize_precedence :
    (∀ (o : PyVal) (s : String), o.strVal = some s → serialize o = .ok o) ∧
    (∀ (o : PyVal) (mk : Rat), o.strVal = none → o.timetupleVal = some mk →
      serialize o = .ok (.pyInt (pyTrunc mk * 1000))) ∧
    (∀ (o v : PyVal), o.strVal = none → o.timetupleVal = none →
      o.itemVal = some v → serialize o = .ok v) ∧
    (∀ (o : PyVal) (q : Rat), o.strVal = none → o.timetupleVal = none →
      o.itemVal = none → o.floatVal = some q → serialize o = .ok (.pyFloat q)) ∧
    (∀ (o : PyVal) (n : Int), o.strVal = none → o.timetupleVal = none →
      o.itemVal = none → o.floatVal = none → o.intVal = some n →
      serialize o = .ok (.pyInt n)) ∧
    (∀ o : PyVal, o.strVal = none → o.timetupleVal = none → o.itemVal = none →
      o.floatVal = none → o.intVal = none →
      serialize o = .error (.loadError ("cannot serialize index of type " ++ o.tname))) := by
  refine ⟨?_, ?_, ?_, ?_, ?_, ?_⟩
  · intro o s h; simp [serialize, h]
  · intro o mk h1 h2; simp [serialize, h1, h2]
  · intro o v h1 h2 h3; simp [serialize, h1, h2, h3]
  · intro o q h1 h2 h3 h4; simp [serialize, h1, h2, h3, h4]
  · intro o n h1 h2 h3 h4 h5; simp [serialize, h1, h2, h3, h4, h5]
  · intro o h1 h2 h3 h4 h5; simp [serialize, h1, h2, h3, h4, h5]

/-- Each precedence rule of `serialize_precedence` exercised on a concrete
input (including a boxed scalar that also offers `__float__`/`__int__`,
showing the unwrap rule wins over the numeric rules). -/
theorem serialize_precedence_witness :
    serialize (.pyStr "a") = .ok (.pyStr "a") ∧
    serialize (.pyTime "date" 2) = .ok (.pyInt 2000) ∧
    serialize (.pyBoxed "int64" (.pyInt 4) (some 4) (some 4)) = .ok (.pyInt 4) ∧
    serialize (.pyFloat (5/2)) = .ok (.pyFloat (5/2)) ∧
    serialize (.pyIntObj "myint" 6) = .ok (.pyInt 6) ∧
    serialize (.pyOther "object") =
      .error (.loadError "cannot serialize index of type object") := by
  refine ⟨serialize_precedence.1 _ "a" rfl, ?_,
    serialize_precedence.2.2.1 _ _ rfl rfl rfl,
    serialize_precedence.2.2.2.1 _ (5/2) rfl rfl rfl rfl,
    serialize_precedence.2.2.2.2.1 _ 6 rfl rfl rfl rfl rfl,
    serialize_precedence.2.2.2.2.2 _ rfl rfl rfl rfl rfl⟩
  have h := serialize_precedence.2.1 (.pyTime "date" 2) 2 rfl rfl
  rw [h]
  decide

/-! ### C7: idempotence on JSON-safe values -/

/-- **C7** (confirmed): for every already-JSON-safe value (a `str`, an `int`
or a `float`), serializing twice equals serializing once.  (Not the identity:
an `int` serializes to a `float` because `__float__` is probed first; but a
second pass is then stable.) -/
theorem serialize_idempotent (o : PyVal) (h : jsonSafe o) :
    (serialize o).bind serialize = serialize o := by
  rcases h with ⟨s, rfl⟩ | ⟨n, rfl⟩ | ⟨q, rfl⟩ <;> rfl

/-- `serialize_idempotent` at the int 5 (where `serialize` is not the
identity, returning the float 5.0). -/
theorem serialize_idempotent_witness :
    (serialize (.pyInt 5)).bind serialize = serialize (.pyInt 5) :=
  serialize_idempotent _ (Or.inr (Or.inl ⟨5, rfl⟩))

/-! ### C9: container name validation -/

/-- **C9** (confirmed): the constructor always establishes a non-empty name
(`'table'` when none is given — also when the empty string is given, since
`''` is falsy), and `validate` raises `ValidationError` exactly on an empty
name. -/
theorem data_name_validation :
    (∀ n : Option String, dataName n ≠ "") ∧
    dataName none = "table" ∧
    (∀ s : String,
      validateName s = .error (.validationError "name is required for Data") ↔
        s = "") := by
  refine ⟨?_, rfl, ?_⟩
  · intro n
    cases n with
    | none => decide
    | some s =>
      by_cases h : s = ""
      · simp [dataName, pyOrStr, h]
      · simp [dataName, pyOrStr, h]
  · intro s
    by_cases h : s = "" <;> simp [validateName, h]

/-- `data_name_validation` at concrete inputs: the empty name defaults to
`'table'` and fails validation. -/
theorem data_name_validation_witness :
    dataName (some "") ≠ "" ∧
    (validateName "" = .error (.validationError "name is required for Data")) :=
  ⟨data_name_validation.1 (some ""), (data_name_validation.2.2 "").mpr rfl⟩

/-! ### C8: the caller's object is never mutated -/

/-- **C8** (confirmed): across the input preparation of `from_pandas` — for
any combination of a column subset and a reindexing key — the slot holding
the caller's `data` object is never written: only the defensive copy
`pd_obj` is (re)assigned and index-remapped. -/
theorem fromPandas_no_mutation (data : PDataFrame)
    (columns : Option (List PyVal)) (key_on : String) :
    (fromPandasPrelude data columns key_on).dataSlot = data := by
  cases columns <;>
    simp only [fromPandasPrelude] <;>
    (repeat' split) <;> rfl

/-! ### C4: the Series handler -/

/-- **C4 counterexample**: the claim says every record's `col` equals the
supplied series name (the `series_key` parameter), but the code computes
`data_key = data.name or series_key` (data.py:194), so a Series whose own
`name` attribute is set (here "x") wins over the supplied `series_key`
(here "data"). -/
theorem seriesValues_col_counterexample :
    seriesValues ⟨some "x", [(.pyInt 0, .pyInt 1)]⟩ "data"
      = .ok [⟨.pyFloat 0, .pyStr "x", .pyFloat 1, none⟩] ∧
    PyVal.pyStr "x" ≠ .pyStr "data" := by
  constructor
  · decide
  · decide

/-- **C4 amended** (proved): for every single-series input whose conversion
succeeds, the handler produces exactly one record per (index, value) pair of
the series, each with `col` equal to `data.name or series_key` — the series'
own name when that is truthy, otherwise the supplied `series_key`. -/
theorem seriesValues_spec (data : PSeries) (sk : String) (out : List Record)
    (h : seriesValues data sk = .ok out) :
    out.length = data.pairs.length ∧
    ∀ r ∈ out, r.col = .pyStr (pyOrStr data.sname sk) := by
  refine ⟨mapSer_length h, ?_⟩
  intro r hr
  obtain ⟨iv, _, hfr⟩ := mapSer_mem h r hr
  cases hsi : serialize iv.1 with
  | error e => simp [hsi] at hfr
  | ok si =>
    cases hsv : serialize iv.2 with
    | error e => simp [hsi, hsv] at hfr
    | ok sv =>
      simp only [hsi, hsv, Except.ok.injEq] at hfr
      subst hfr
      rfl

/-- `seriesValues_spec` applied to a concrete nameless series
`{0: 3.0}` with `series_key = 'table'`. -/
theorem seriesValues_spec_witness :
    ([⟨.pyFloat 0, .pyStr "table", .pyFloat 3, none⟩] : List Record).length =
      ([(PyVal.pyInt 0, PyVal.pyFloat 3)] : List (PyVal × PyVal)).length ∧
    ∀ r ∈ ([⟨.pyFloat 0, .pyStr "table", .pyFloat 3, none⟩] : List Record),
      r.col = .pyStr (pyOrStr none "table") :=
  seriesValues_spec ⟨none, [(.pyInt 0, .pyFloat 3)]⟩ "table" _ (by decide)

/-! ### C5: the DataFrame handler -/

theorem dfRowValues_ok {grouped : Bool} {i : PyVal} :
    ∀ {num : Nat} {pairs : List (PyVal × PyVal)} {out : List Record},
      dfRowValues grouped i num pairs = .ok out →
      out = rowExpected grouped i num pairs := by
  intro num pairs
  induction pairs generalizing num with
  | nil =>
    intro out h
    simp only [dfRowValues, Except.ok.injEq] at h
    simp [← h, rowExpected]
  | cons kv rest ih =>
    intro out h
    obtain ⟨k, v⟩ := kv
    simp only [dfRowValues] at h
    cases hsi : serialize i with
    | error e => simp [hsi] at h
    | ok si =>
      cases hsk : serialize k with
      | error e => simp [hsi, hsk] at h
      | ok sk =>
        cases hsv : serialize v with
        | error e => simp [hsi, hsk, hsv] at h
        | ok sv =>
          cases hrec : dfRowValues grouped i (num + 1) rest with
          | error e => simp [hsi, hsk, hsv, hrec] at h
          | ok rs =>
            simp only [hsi, hsk, hsv, hrec, Except.ok.injEq] at h
            subst h
            simp [rowExpected, serOk, hsi, hsk, hsv, ih hrec]

theorem dfValues_ok {grouped : Bool} {cols : List PyVal} :
    ∀ {l : List (PyVal × List PyVal)} {out : List Record},
      dfValues grouped cols l = .ok out → out = dfExpected grouped cols l := by
  intro l
  induction l with
  | nil =>
    intro out h
    simp only [dfValues, Except.ok.injEq] at h
    simp [← h, dfExpected]
  | cons p rest ih =>
    intro out h
    obtain ⟨i, row⟩ := p
    simp only [dfValues] at h
    cases hrow : dfRowValues grouped i 0 (List.zip cols row) with
    | error e => simp [hrow] at h
    | ok rvals =>
      cases hrec : dfValues grouped cols rest with
      | error e => simp [hrow, hrec] at h
      | ok rs =>
        simp only [hrow, hrec, Except.ok.injEq] at h
        subst h
        simp [dfExpected, dfRowValues_ok hrow, ih hrec]

theorem rowExpected_length {grouped : Bool} {i : PyVal} :
    ∀ (num : Nat) (pairs : List (PyVal × PyVal)),
      (rowExpected grouped i num pairs).length = pairs.length := by
  intro num pairs
  induction pairs generalizing num with
  | nil => rfl
  | cons kv rest ih =>
    obtain ⟨k, v⟩ := kv
    simp [rowExpected, ih]

theorem rowExpected_group {grouped : Bool} {i : PyVal} :
    ∀ (num : Nat) (pairs : List (PyVal × PyVal)),
      (rowExpected grouped i num pairs).map (fun r => r.group) =
        (List.range' num pairs.length).map
          (fun j => if grouped then some j else none) := by
  intro num pairs
  induction pairs generalizing num with
  | nil => rfl
  | cons kv rest ih =>
    obtain ⟨k, v⟩ := kv
    simp [rowExpected, List.range'_succ, ih]

theorem dfExpected_length {grouped : Bool} {cols : List PyVal} :
    ∀ {l : List (PyVal × List PyVal)},
      (∀ p ∈ l, p.2.length = cols.length) →
      (dfExpected grouped cols l).length = l.length * cols.length := by
  intro l
  induction l with
  | nil => intro _; simp [dfExpected]
  | cons p rest ih =>
    intro h
    obtain ⟨i, row⟩ := p
    have hrow : row.length = cols.length := h (i, row) (by simp)
    have ihrec := ih (fun q hq => h q (List.mem_cons_of_mem _ hq))
    simp only [dfExpected, List.length_append, rowExpected_length,
      List.length_zip, hrow, min_self, ihrec, List.length_cons]
    ring

theorem dfExpected_group {grouped : Bool} {cols : List PyVal} :
    ∀ {l : List (PyVal × List PyVal)},
      (∀ p ∈ l, p.2.length = cols.length) →
      (dfExpected grouped cols l).map (fun r => r.group) =
        groupColumn grouped l.length cols.length := by
  intro l
  induction l with
  | nil => intro _; simp [dfExpected, groupColumn]
  | cons p rest ih =>
    intro h
    obtain ⟨i, row⟩ := p
    have hrow : row.length = cols.length := h (i, row) (by simp)
    have ihrec := ih (fun q hq => h q (List.mem_cons_of_mem _ hq))
    simp only [dfExpected, List.map_append, rowExpected_group, List.length_zip,
      hrow, min_self, ihrec, groupColumn, List.length_cons, List.replicate_succ,
      List.flatten_cons, List.range_eq_range']

/-- **C5** (confirmed): for a multi-column input with `R` rows and `C`
columns (no column subset, default reindexing) whose conversion succeeds,
the handler emits, row by row and within a row column by column, one record
`{idx: serialize(rowIndex), col: serialize(columnName),
val: serialize(cellValue)}` per cell (the `dfExpected` form) — in total
exactly `R × C` records — and when grouping is enabled the `group` fields
cycle `0 .. C-1` within each row's block (`groupColumn`). -/
theorem fromPandasDF_spec (df : PDataFrame) (grouped : Bool) (out : List Record)
    (hrows : ∀ r ∈ df.rows, r.length = df.cols.length)
    (hidx : df.index.length = df.rows.length)
    (h : fromPandasDF df grouped = .ok out) :
    out = dfExpected grouped df.cols (List.zip df.index df.rows) ∧
    out.length = df.rows.length * df.cols.length ∧
    out.map (fun r => r.group) =
      groupColumn grouped df.rows.length df.cols.length := by
  have hz : ∀ p ∈ List.zip df.index df.rows, p.2.length = df.cols.length := by
    intro p hp
    obtain ⟨i, row⟩ := p
    exact hrows row (List.of_mem_zip hp).2
  have hzlen : (List.zip df.index df.rows).length = df.rows.length := by
    simp [List.length_zip, hidx]
  have hout : out = dfExpected grouped df.cols (List.zip df.index df.rows) :=
    dfValues_ok h
  refine ⟨hout, ?_, ?_⟩
  · rw [hout, dfExpected_length hz, hzlen]
  · rw [hout, dfExpected_group hz, hzlen]

/-- `fromPandasDF_spec` applied to a concrete grouped 2-by-2 DataFrame. -/
theorem fromPandasDF_spec_witness :
    (dfExpected true [.pyStr "a", .pyStr "b"]
        (List.zip [PyVal.pyInt 0, PyVal.pyInt 1]
          [[PyVal.pyInt 10, PyVal.pyInt 20], [PyVal.pyInt 30, PyVal.pyInt 40]])).length
      = 2 * 2 ∧
    (dfExpected true [.pyStr "a", .pyStr "b"]
        (List.zip [PyVal.pyInt 0, PyVal.pyInt 1]
          [[PyVal.pyInt 10, PyVal.pyInt 20], [PyVal.pyInt 30, PyVal.pyInt 40]])).map
        (fun r => r.group) = groupColumn true 2 2 := by
  have h := fromPandasDF_spec
    ⟨[.pyInt 0, .pyInt 1], [.pyStr "a", .pyStr "b"],
      [[.pyInt 10, .pyInt 20], [.pyInt 30, .pyInt 40]]⟩
    true
    (dfExpected true [.pyStr "a", .pyStr "b"]
      (List.zip [PyVal.pyInt 0, PyVal.pyInt 1]
        [[PyVal.pyInt 10, PyVal.pyInt 20], [PyVal.pyInt 30, PyVal.pyInt 40]]))
    (by decide) (by decide) (by decide)
  exact ⟨h.2.1, h.2.2⟩

/-! ### C2 and C6: the numpy handler -/

/-- With distinct column names none of which collides with the index key,
each row dict of `from_numpy` keeps its pairs exactly as built. -/
theorem pyDict_row_cons {columns : List String} {ikey : String} {x : PyVal}
    {row : List PyVal} (hnodup : columns.Nodup) (hkey : ikey ∉ columns)
    (hlen : columns.length ≤ row.length) :
    pyDict ((ikey, x) :: List.zip columns row) = (ikey, x) :: List.zip columns row := by
  apply pyDict_eq_self
  have hfst : (List.zip columns row).map Prod.fst = columns :=
    List.map_fst_zip columns row hlen
  simp [hfst, hnodup, hkey]

/-- Success inversion for `fromNumpy`: the checks passed and the values list
is the per-row dict comprehension (serialization applied to the index label
only). -/
theorem fromNumpy_values_eq {npRows : List (List PyVal)} {ncols : Nat}
    {name : String} {columns : List String} {index : Option (List PyVal)}
    {index_key : Option String} {d : DataVals (List (String × PyVal))}
    (h : fromNumpy npRows ncols name columns index index_key = .ok d) :
    (effIndex npRows index).length = npRows.length ∧
    columns.length = ncols ∧
    d.values = (List.zip (effIndex npRows index) npRows).map
      (fun ir => pyDict ((pyOrStr index_key "idx", serOk ir.1) ::
        List.zip columns ir.2)) := by
  by_cases hL : (effIndex npRows index).length = npRows.length
  · by_cases hc : columns.length = ncols
    · refine ⟨hL, hc, ?_⟩
      simp only [fromNumpy, hL, hc, ne_eq, not_true_eq_false, if_false,
        reduceIte] at h
      cases hm : mapSer (fun ir =>
          match serialize ir.1 with
          | .error e => .error e
          | .ok si => .ok (pyDict ((pyOrStr index_key "idx", si) ::
              List.zip columns ir.2)))
          (List.zip (effIndex npRows index) npRows) with
      | error e => rw [hm] at h; exact absurd h (by simp)
      | ok values =>
        rw [hm] at h
        simp only [Except.ok.injEq] at h
        have hv : d.values = values := by rw [← h]
        rw [hv]
        refine forall₂_eq_map (mapSer_forall₂ hm) ?_
        intro ir m hm'
        cases hsi : serialize ir.1 with
        | error e => simp [hsi] at hm'
        | ok si =>
          simp only [hsi, Except.ok.injEq] at hm'
          rw [← hm']
          simp [serOk, hsi]
    · exact absurd h (by simp [fromNumpy, hL, hc])
  · exact absurd h (by simp [fromNumpy, hL])

/-- **C6** (confirmed): in every row-mapping produced by `from_numpy`, the
index label passes through `serialize` (`serOk`) while the per-column cell
values are stored raw — the zipped cells `List.zip columns ir.2` appear in
the dict exactly as taken from the array row, never serialized. -/
theorem fromNumpy_cells_raw {npRows : List (List PyVal)} {ncols : Nat}
    {name : String} {columns : List String} {index : Option (List PyVal)}
    {index_key : Option String} {d : DataVals (List (String × PyVal))}
    (hwf : ∀ r ∈ npRows, r.length = ncols)
    (hnodup : columns.Nodup) (hkey : pyOrStr index_key "idx" ∉ columns)
    (h : fromNumpy npRows ncols name columns index index_key = .ok d) :
    d.values = (List.zip (effIndex npRows index) npRows).map
      (fun ir => (pyOrStr index_key "idx", serOk ir.1) :: List.zip columns ir.2) := by
  obtain ⟨-, hc, hv⟩ := fromNumpy_values_eq h
  rw [hv]
  apply List.map_congr_left
  intro ir hir
  refine pyDict_row_cons hnodup hkey ?_
  rw [hc, hwf ir.2 (List.of_mem_zip hir).2]

/-- `fromNumpy_cells_raw` on a concrete 1-by-1 array holding the int 7: the
index label 0 is serialized (to the float 0.0) while the cell stays the raw
int 7. -/
theorem fromNumpy_cells_raw_witness :
    ([[("idx", PyVal.pyFloat 0), ("a", PyVal.pyInt 7)]] :
        List (List (String × PyVal))) =
      (List.zip (effIndex [[PyVal.pyInt 7]] none) [[PyVal.pyInt 7]]).map
        (fun ir => (pyOrStr none "idx", serOk ir.1) :: List.zip ["a"] ir.2) := by
  exact @fromNumpy_cells_raw [[PyVal.pyInt 7]] 1 "n" ["a"] none none
    ⟨"n", [[("idx", .pyFloat 0), ("a", .pyInt 7)]]⟩
    (by decide) (by decide) (by decide) (by decide)

/-- **C2 counterexample**: the claim says `from_numpy` fails whenever the
supplied index length differs from the row count, but
`index = index or range(np_obj.shape[0])` (data.py:254) treats a supplied
*empty* index as absent: with a 1-row array and an explicitly supplied
empty index (length 0 ≠ 1) the call succeeds, substituting the default
0-based index. -/
theorem fromNumpy_empty_index_counterexample :
    fromNumpy [[.pyInt 7]] 1 "n" ["a"] (some []) none
      = .ok ⟨"n", [[("idx", .pyFloat 0), ("a", .pyInt 7)]]⟩ ∧
    ([] : List PyVal).length ≠ ([[PyVal.pyInt 7]] : List (List PyVal)).length := by
  constructor <;> decide

/-- `serialize` only ever fails with the `LoadError` naming the value's
type. -/
theorem serialize_error_form {o : PyVal} {e : PyErr}
    (h : serialize o = .error e) :
    e = .loadError ("cannot serialize index of type " ++ o.tname) := by
  cases o <;>
    simp_all [serialize, PyVal.strVal, PyVal.timetupleVal, PyVal.itemVal,
      PyVal.floatVal, PyVal.intVal, PyVal.tname]

/-- A serialization `LoadError` is never the index length-mismatch
`LoadError` (their messages differ in the first character). -/
theorem serialize_msg_ne_idx (tn : String) :
    PyErr.loadError ("cannot serialize index of type " ++ tn) ≠
      .loadError "length of index must be equal to number of rows of array" := by
  intro h
  have h2 := PyErr.loadError.inj h
  have h1 := congrArg (fun s : String => s.data.head?) h2
  dsimp only [] at h1
  rw [String.data_append] at h1
  simp at h1

/-- A serialization `LoadError` is never the columns length-mismatch
`LoadError`. -/
theorem serialize_msg_ne_cols (tn : String) :
    PyErr.loadError ("cannot serialize index of type " ++ tn) ≠
      .loadError "length of columns must be equal to number of columns of array" := by
  intro h
  have h2 := PyErr.loadError.inj h
  have h1 := congrArg (fun s : String => s.data.head?) h2
  dsimp only [] at h1
  rw [String.data_append] at h1
  simp at h1

/-- **C2 amended** (proved): `from_numpy` fails with the index
length-mismatch `LoadError` iff the *effective* index (the supplied one
unless it is falsy, in which case the default `range(rowCount)` replaces it)
has length ≠ row count; it fails with the columns length-mismatch `LoadError`
iff the index check passed and the column-name count ≠ column count;
otherwise, provided every effective index label serializes, it *succeeds*,
producing exactly `rowCount` row-mappings, and (for distinct column names
not colliding with the index key, on a rectangular array) each mapping holds
the index field plus one entry per column name.  (The last conjunct asserts
the success; the third says every successful result has that shape.) -/
theorem fromNumpy_spec (npRows : List (List PyVal)) (ncols : Nat)
    (name : String) (columns : List String) (index : Option (List PyVal))
    (index_key : Option String) :
    (fromNumpy npRows ncols name columns index index_key =
        .error (.loadError "length of index must be equal to number of rows of array") ↔
      (effIndex npRows index).length ≠ npRows.length) ∧
    (fromNumpy npRows ncols name columns index index_key =
        .error (.loadError "length of columns must be equal to number of columns of array") ↔
      ((effIndex npRows index).length = npRows.length ∧ columns.length ≠ ncols)) ∧
    (∀ d, fromNumpy npRows ncols name columns index index_key = .ok d →
      d.values.length = npRows.length ∧
      (columns.Nodup → pyOrStr index_key "idx" ∉ columns →
        (∀ r ∈ npRows, r.length = ncols) →
        ∀ m ∈ d.values, m.map Prod.fst = pyOrStr index_key "idx" :: columns)) ∧
    ((effIndex npRows index).length = npRows.length → columns.length = ncols →
      (∀ v ∈ effIndex npRows index, serializes v = true) →
      ∃ d, fromNumpy npRows ncols name columns index index_key = .ok d ∧
        d.values.length = npRows.length ∧
        (columns.Nodup → pyOrStr index_key "idx" ∉ columns →
          (∀ r ∈ npRows, r.length = ncols) →
          ∀ m ∈ d.values, m.map Prod.fst = pyOrStr index_key "idx" :: columns)) := by
  by_cases hL : (effIndex npRows index).length = npRows.length
  · by_cases hc : columns.length = ncols
    · cases hm : mapSer (fun ir =>
          match serialize ir.1 with
          | .error e => Except.error e
          | .ok si => Except.ok (pyDict ((pyOrStr index_key "idx", si) ::
              List.zip columns ir.2)))
          (List.zip (effIndex npRows index) npRows) with
      | error e =>
        have hform : ∃ tn, e = .loadError ("cannot serialize index of type " ++ tn) := by
          obtain ⟨a, -, hfa⟩ := mapSer_error_mem hm
          cases hsi : serialize a.1 with
          | error e' =>
            simp only [hsi, Except.error.injEq] at hfa
            exact ⟨a.1.tname, by rw [← hfa]; exact serialize_error_form hsi⟩
          | ok si => simp [hsi] at hfa
        obtain ⟨tn, rfl⟩ := hform
        have hres : fromNumpy npRows ncols name columns index index_key =
            .error (.loadError ("cannot serialize index of type " ++ tn)) := by
          simp only [fromNumpy, hL, hc, ne_eq, not_true_eq_false, if_false,
            reduceIte]
          rw [hm]
        refine ⟨?_, ?_, ?_, ?_⟩
        · rw [hres]
          exact iff_of_false
            (fun hcon => serialize_msg_ne_idx tn (Except.error.inj hcon))
            (by simp [hL])
        · rw [hres]
          exact iff_of_false
            (fun hcon => serialize_msg_ne_cols tn (Except.error.inj hcon))
            (by simp [hc])
        · intro d hd
          rw [hres] at hd
          exact absurd hd (by simp)
        · intro _ _ hser
          exfalso
          obtain ⟨a, ha, hfa⟩ := mapSer_error_mem hm
          have hv := hser a.1 (List.of_mem_zip ha).1
          cases hsi : serialize a.1 with
          | error e' => simp [serializes, hsi] at hv
          | ok si => simp [hsi] at hfa
      | ok values =>
        have hres : fromNumpy npRows ncols name columns index index_key =
            .ok ⟨dataName (some name), values⟩ := by
          simp only [fromNumpy, hL, hc, ne_eq, not_true_eq_false, if_false,
            reduceIte]
          rw [hm]
        have hprops1 : values.length = npRows.length := by
          rw [mapSer_length hm]
          simp [List.length_zip, hL]
        have hprops2 : columns.Nodup → pyOrStr index_key "idx" ∉ columns →
            (∀ r ∈ npRows, r.length = ncols) →
            ∀ m ∈ values, m.map Prod.fst = pyOrStr index_key "idx" :: columns := by
          intro hnodup hkey hwf m hmem
          obtain ⟨ir, hir, hfr⟩ := mapSer_mem hm m hmem
          cases hsi : serialize ir.1 with
          | error e => simp [hsi] at hfr
          | ok si =>
            simp only [hsi, Except.ok.injEq] at hfr
            subst hfr
            have hlen : columns.length ≤ ir.2.length :=
              le_of_eq (hc.trans (hwf ir.2 (List.of_mem_zip hir).2).symm)
            rw [pyDict_row_cons hnodup hkey hlen]
            simp [List.map_fst_zip columns ir.2 hlen]
        refine ⟨?_, ?_, ?_, ?_⟩
        · rw [hres]
          exact iff_of_false (by simp) (by simp [hL])
        · rw [hres]
          exact iff_of_false (by simp) (by simp [hc])
        · intro d hd
          rw [hres] at hd
          simp only [Except.ok.injEq] at hd
          subst hd
          exact ⟨hprops1, hprops2⟩
        · intro _ _ _
          exact ⟨_, hres, hprops1, hprops2⟩
    · have hres : fromNumpy npRows ncols name columns index index_key =
          .error (.loadError "length of columns must be equal to number of columns of array") := by
        simp [fromNumpy, hL, hc]
      refine ⟨?_, ?_, ?_, ?_⟩
      · rw [hres]
        exact iff_of_false (by decide) (by simp [hL])
      · rw [hres]
        exact iff_of_true rfl ⟨hL, hc⟩
      · intro d hd
        rw [hres] at hd
        exact absurd hd (by simp)
      · intro _ h2 _
        exact absurd h2 hc
  · have hres : fromNumpy npRows ncols name columns index index_key =
        .error (.loadError "length of index must be equal to number of rows of array") := by
      simp [fromNumpy, hL]
    refine ⟨?_, ?_, ?_, ?_⟩
    · rw [hres]
      exact iff_of_true rfl hL
    · rw [hres]
      exact iff_of_false (by decide) (by simp [hL])
    · intro d hd
      rw [hres] at hd
      exact absurd hd (by simp)
    · intro h1 _ _
      exact absurd h1 hL

/-- `fromNumpy_spec` at concrete inputs, exercising both branches: the
columns length-mismatch error on a 1-by-1 array with an empty column list
(the spec's own failure scenario), and the success clause on a 1-by-1 array
with a matching index and column list. -/
theorem fromNumpy_spec_witness :
    (fromNumpy [[.pyInt 1]] 1 "n" [] none none =
      .error (.loadError "length of columns must be equal to number of columns of array")) ∧
    (∃ d, fromNumpy [[.pyInt 7]] 1 "n" ["a"] none none = .ok d ∧
      d.values.length = ([[PyVal.pyInt 7]] : List (List PyVal)).length ∧
      ((["a"] : List String).Nodup → pyOrStr none "idx" ∉ (["a"] : List String) →
        (∀ r ∈ ([[PyVal.pyInt 7]] : List (List PyVal)), r.length = 1) →
        ∀ m ∈ d.values, m.map Prod.fst = pyOrStr none "idx" :: ["a"])) :=
  ⟨((fromNumpy_spec [[.pyInt 1]] 1 "n" [] none none).2.1).mpr
    ⟨by decide, by decide⟩,
   (fromNumpy_spec [[.pyInt 7]] 1 "n" ["a"] none none).2.2.2
    (by decide) (by decide) (by decide)⟩

/-! ### C3 and C10: the named-sequences handler -/

theorem dedup_const {L : Nat} :
    ∀ {l : List Nat}, l ≠ [] → (∀ x ∈ l, x = L) → l.dedup = [L] := by
  intro l
  induction l with
  | nil => intro h _; exact absurd rfl h
  | cons a rest ih =>
    intro _ hall
    have ha : a = L := hall a (by simp)
    cases hrest : rest with
    | nil =>
      subst hrest
      rw [List.dedup_cons_of_not_mem (by simp), List.dedup_nil, ha]
    | cons b rest' =>
      subst hrest
      have hb : b = L := hall b (by simp)
      have hmem : a ∈ b :: rest' := by simp [ha, hb]
      rw [List.dedup_cons_of_mem hmem]
      exact ih (by simp) (fun x hx => hall x (List.mem_cons_of_mem _ hx))

theorem lookup_of_mem_keys {β : Type} {k : String} :
    ∀ {l : List (String × β)}, k ∈ l.map Prod.fst →
      ∃ v, l.lookup k = some v ∧ (k, v) ∈ l := by
  intro l
  induction l with
  | nil => intro h; simp at h
  | cons p rest ih =>
    intro h
    obtain ⟨k', v'⟩ := p
    by_cases hk : k' = k
    · subst hk
      exact ⟨v', by simp [List.lookup], by simp⟩
    · have h' : k ∈ rest.map Prod.fst := by
        simp only [List.map_cons, List.mem_cons] at h
        rcases h with h0 | h0
        · exact absurd h0.symm hk
        · exact h0
      obtain ⟨v, hv, hmem⟩ := ih h'
      refine ⟨v, ?_, List.mem_cons_of_mem _ hmem⟩
      have hbeq : (k == k') = false := by
        simp [Ne.symm hk]
      simp [List.lookup, hbeq, hv]

theorem lookup_eq_none_of_not_mem {β : Type} {k : String} :
    ∀ {l : List (String × β)}, k ∉ l.map Prod.fst → l.lookup k = none := by
  intro l
  induction l with
  | nil => intro _; rfl
  | cons p rest ih =>
    intro h
    obtain ⟨k', v'⟩ := p
    have hk : ¬(k = k') := fun he => h (by simp [he])
    have hbeq : (k == k') = false := by simp [hk]
    have h' : k ∉ rest.map Prod.fst := fun hm => h (by simp [hm])
    simp [List.lookup, hbeq, ih h']

theorem flatMap_const_length {α β : Type} {f : α → List β} {L : Nat} :
    ∀ {l : List α}, (∀ x ∈ l, (f x).length = L) →
      (l.flatMap f).length = l.length * L := by
  intro l
  induction l with
  | nil => intro _; simp
  | cons a rest ih =>
    intro h
    simp only [List.flatMap_cons, List.length_append, h a (by simp),
      ih (fun x hx => h x (List.mem_cons_of_mem _ hx)), List.length_cons]
    ring

/-- **C3 counterexample**: the claim says the handler fails with the
"must provide index reference" error if and only if no index name is
supplied; but the code checks the length invariant *first* (data.py:306
before data.py:309), so on a call with no index name and unequal lengths the
raised error is the length error, not the index-reference error. -/
theorem fromMultIters_order_counterexample :
    fromMultIters none none [("x", [.pyInt 0]), ("y", [.pyInt 0, .pyInt 1])]
      = .error (.valueError "Iterables must all be same length") ∧
    PyErr.valueError "Iterables must all be same length" ≠
      .valueError "Must provide iter name index reference" := by
  constructor <;> decide

/-- **C3 amended** (proved): `from_mult_iters` fails with the
"must all be same length" `ValueError` iff the multiset of sequence lengths
does not have exactly one distinct value (checked first — so also when, in
addition, no index name is supplied, and also when no sequences at all are
supplied); *otherwise* it fails with the "must provide index reference"
`ValueError` iff the index name is falsy; and when the index name is supplied
and names one of `K + 1` equal-length sequences of length `L`, it succeeds
with exactly `K × L` records. -/
theorem fromMultIters_spec (name idx : Option String)
    (kwargs : List (String × List PyVal)) :
    (fromMultIters name idx kwargs =
        .error (.valueError "Iterables must all be same length") ↔
      (kwargs.map (fun p => p.2.length)).dedup.length ≠ 1) ∧
    (fromMultIters name idx kwargs =
        .error (.valueError "Must provide iter name index reference") ↔
      ((kwargs.map (fun p => p.2.length)).dedup.length = 1 ∧
        pyTruthy idx = none)) ∧
    (∀ (iname : String) (L : Nat), pyTruthy idx = some iname → kwargs ≠ [] →
      (∀ p ∈ kwargs, p.2.length = L) → iname ∈ kwargs.map Prod.fst →
      ∃ d, fromMultIters name idx kwargs = .ok d ∧
        d.name = pyOrStr name "table" ∧
        d.values.length = (kwargs.length - 1) * L) := by
  by_cases hlen : (kwargs.map (fun p => p.2.length)).dedup.length = 1
  · cases hidx : pyTruthy idx with
    | none =>
      have hres : fromMultIters name idx kwargs =
          .error (.valueError "Must provide iter name index reference") := by
        simp only [fromMultIters, hlen, ne_eq, not_true_eq_false, if_false,
          reduceIte, hidx]
      refine ⟨?_, ?_, ?_⟩
      · rw [hres]
        exact iff_of_false (by decide) (fun hcon => hcon hlen)
      · rw [hres]
        exact iff_of_true rfl ⟨hlen, rfl⟩
      · intro iname L h1 _ _ _
        exact absurd h1 (by simp)
    | some iname0 =>
      cases hlk : kwargs.lookup iname0 with
      | none =>
        have hres : fromMultIters name idx kwargs =
            .error (.keyError iname0) := by
          simp only [fromMultIters, hlen, ne_eq, not_true_eq_false, if_false,
            reduceIte, hidx, hlk]
        refine ⟨?_, ?_, ?_⟩
        · rw [hres]
          exact iff_of_false (by simp) (fun hcon => hcon hlen)
        · rw [hres]
          exact iff_of_false (by simp) (by simp)
        · intro iname L h1 _ _ hmem
          have he : iname0 = iname := Option.some.inj h1
          subst he
          obtain ⟨v, hv, -⟩ := lookup_of_mem_keys hmem
          rw [hv] at hlk
          exact absurd hlk (by simp)
      | some index =>
        have hres : fromMultIters name idx kwargs =
            .ok ⟨pyOrStr name "table",
              (kwargs.eraseP (fun p => p.1 == iname0)).flatMap (fun kv =>
                (List.zip index kv.2).map
                  (fun iv => ⟨iv.1, .pyStr kv.1, iv.2, none⟩))⟩ := by
          simp only [fromMultIters, hlen, ne_eq, not_true_eq_false, if_false,
            reduceIte, hidx, hlk]
        refine ⟨?_, ?_, ?_⟩
        · rw [hres]
          exact iff_of_false (by simp) (fun hcon => hcon hlen)
        · rw [hres]
          exact iff_of_false (by simp) (by simp)
        · intro iname L h1 _ hall hmem
          have he : iname0 = iname := Option.some.inj h1
          subst he
          obtain ⟨v, hv, hmemv⟩ := lookup_of_mem_keys hmem
          rw [hv] at hlk
          have hvi : v = index := Option.some.inj hlk
          subst hvi
          have hidxlen : v.length = L := hall _ hmemv
          refine ⟨_, hres, rfl, ?_⟩
          have hrest : ∀ p ∈ kwargs.eraseP (fun q => q.1 == iname0),
              ((List.zip v p.2).map
                (fun iv => (⟨iv.1, .pyStr p.1, iv.2, none⟩ : Record))).length = L := by
            intro p hp
            have hpk : p ∈ kwargs := (List.eraseP_sublist kwargs).subset hp
            simp [List.length_zip, hidxlen, hall p hpk]
          have herase : (kwargs.eraseP (fun q => q.1 == iname0)).length =
              kwargs.length - 1 :=
            List.length_eraseP_of_mem hmemv (by simp)
          simp only [flatMap_const_length hrest, herase]
  · have hres : fromMultIters name idx kwargs =
        .error (.valueError "Iterables must all be same length") := by
      simp only [fromMultIters, hlen, ne_eq, not_false_eq_true, if_true,
        reduceIte]
    refine ⟨?_, ?_, ?_⟩
    · rw [hres]
      exact iff_of_true rfl hlen
    · rw [hres]
      exact iff_of_false (by decide) (fun hcon => hlen hcon.1)
    · intro iname L h1 hne hall hmem
      have hded : (kwargs.map (fun p => p.2.length)).dedup = [L] :=
        dedup_const (by simpa using hne) (fun x hx => by
          obtain ⟨p, hp, hx'⟩ := List.mem_map.1 hx
          rw [← hx']
          exact hall p hp)
      exact absurd (by rw [hded]; rfl :
        (kwargs.map (fun p => p.2.length)).dedup.length = 1) hlen

/-- `fromMultIters_spec` at a concrete two-sequence input keyed on "x":
the success branch with `K = 1`, `L = 1`. -/
theorem fromMultIters_spec_witness :
    ∃ d, fromMultIters (some "t") (some "x")
        [("x", [.pyInt 0]), ("y", [.pyInt 5])] = .ok d ∧
      d.name = pyOrStr (some "t") "table" ∧
      d.values.length =
        (([("x", [PyVal.pyInt 0]), ("y", [PyVal.pyInt 5])] :
            List (String × List PyVal)).length - 1) * 1 :=
  (fromMultIters_spec (some "t") (some "x")
    [("x", [.pyInt 0]), ("y", [.pyInt 5])]).2.2
    "x" 1 (by decide) (by decide) (by decide) (by decide)

/-- **C10** (confirmed): when the index name is supplied but matches no
sequence name, and the sequences share one common length, `from_mult_iters`
dies with the raw `KeyError` from `kwargs.pop(idx)` (data.py:312) — an error
distinct from every error kind named in the spec's taxonomy — and produces
no records. -/
theorem fromMultIters_keyerror (name idx : Option String) (iname : String)
    (kwargs : List (String × List PyVal))
    (hidx : pyTruthy idx = some iname)
    (hlen : (kwargs.map (fun p => p.2.length)).dedup.length = 1)
    (hnotin : iname ∉ kwargs.map Prod.fst) :
    fromMultIters name idx kwargs = .error (.keyError iname) ∧
    (∀ m, PyErr.keyError iname ≠ .valueError m) ∧
    (∀ m, PyErr.keyError iname ≠ .loadError m) ∧
    (∀ m, PyErr.keyError iname ≠ .validationError m) := by
  have hlk : kwargs.lookup iname = none := lookup_eq_none_of_not_mem hnotin
  refine ⟨?_, ?_, ?_, ?_⟩
  · simp only [fromMultIters, hlen, ne_eq, not_true_eq_false, if_false,
      reduceIte, hidx, hlk]
  · intro m; simp
  · intro m; simp
  · intro m; simp

/-- `fromMultIters_keyerror` at a concrete input: index name "x" with only a
sequence named "y" supplied. -/
theorem fromMultIters_keyerror_witness :
    fromMultIters (some "t") (some "x") [("y", [.pyInt 1])]
      = .error (.keyError "x") :=
  (fromMultIters_keyerror (some "t") (some "x") "x" [("y", [.pyInt 1])]
    (by decide) (by decide) (by decide)).1

end Vincent
